import Mathlib

/-!
# Verification of the contract point-of-contact processing pipeline

Shallow embedding of `src/POC-processing.py`: name cleaning (`clean_name`),
the aggregation map (`add_to_dict`), the custom sort key (`custom_sort_key`),
the four sorting policies (`sort_dataframe`), and the driver (`main`), here
`runPipeline`.  CSV cells that may be missing (pandas `NaN`) are modelled as
`Option String`; Python exceptions as an `Except` result.
-/

namespace POC

/-- Errors a `clean_name` call can raise: `NameError` for the reference to
`new_df`, which is a local of `main` and unbound in `clean_name`'s scope, and
`IndexError` for `re.findall(...)[0]` on an empty match list. -/
inductive PyErr where
  | nameError
  | indexError
deriving DecidableEq, Repr

/-- A CSV cell: `none` models a missing value (pandas `NaN`). -/
abbrev Cell := Option String

/-- Python truthiness combined with the `pd.isna` guard of `add_to_dict`
(line 37): a cell passes iff it is present and not the empty string. -/
def truthy (c : Cell) : Bool :=
  match c with
  | none => false
  | some s => s ≠ ""

/-- `len(name.split())`: number of maximal non-whitespace runs. -/
def wordCount (s : String) : Nat :=
  (s.data.foldl
    (fun (st : Nat × Bool) c =>
      if c.isWhitespace then (st.1, false)
      else if st.2 then st else (st.1 + 1, true))
    (0, false)).1

/-- One step of Python `str.title()`: the boolean is whether the previous
character was cased (a letter); a letter after a non-cased character is
uppercased, a letter after a cased one is lowercased. -/
def pyTitleChars : Bool → List Char → List Char
  | _, [] => []
  | prevCased, c :: rest =>
    if c.isAlpha then
      (if prevCased then c.toLower else c.toUpper) :: pyTitleChars true rest
    else
      c :: pyTitleChars false rest

/-- Python `str.title()` (ASCII-cased semantics, as used on this data). -/
def pyTitle (s : String) : String :=
  ⟨pyTitleChars false s.data⟩

/-- `re.sub(r'\s+', ' ', ...)`: collapse every whitespace run to a single
space.  The boolean records whether the previous character was whitespace. -/
def collapseWS : Bool → List Char → List Char
  | _, [] => []
  | prev, c :: rest =>
    if c.isWhitespace then
      if prev then collapseWS true rest else ' ' :: collapseWS true rest
    else
      c :: collapseWS false rest

/-- `re.sub(r'A1C', '', ...)`: delete every (non-overlapping) occurrence of
the literal `A1C`. -/
def removeA1C : List Char → List Char
  | 'A' :: '1' :: 'C' :: rest => removeA1C rest
  | c :: rest => c :: removeA1C rest
  | [] => []

/-- The two quote characters removed by `re.sub` with a quote character
class (the second is the apostrophe, code point 39). -/
def isQuoteChar (c : Char) : Bool :=
  c = '"' || c = Char.ofNat 39

/-- `re.sub` with the quote character class: remove all quotes. -/
def removeQuotes (l : List Char) : List Char :=
  l.filter (fun c => !isQuoteChar c)

/-- `re.sub` with pattern caret, digit-run, whitespace-run: remove one
leading run of digits and the whitespace that follows it. -/
def stripLeadingDigits (l : List Char) : List Char :=
  match l with
  | [] => []
  | c :: _ =>
    if c.isDigit then
      (l.dropWhile Char.isDigit).dropWhile Char.isWhitespace
    else l

/-- Python `str.strip()`: drop leading and trailing whitespace. -/
def pyStrip (l : List Char) : List Char :=
  ((l.dropWhile Char.isWhitespace).reverse.dropWhile Char.isWhitespace).reverse

/-- `re.match` with pattern caret, whitespace-run, literal `Telephone:`:
does the string begin with optional whitespace followed by `Telephone:`? -/
def telephoneMarker (s : String) : Bool :=
  List.isPrefixOf "Telephone:".data (s.data.dropWhile Char.isWhitespace)

/-- Is the `Telephone:` branch of `clean_name` reached on this input?
It is guarded by the word-count check, which fires first (line 61). -/
def telephoneBranchTaken (s : String) : Bool :=
  decide (wordCount s ≤ 4) && telephoneMarker s

/-- `clean_name` (lines 48-72).  The `Telephone:` branch computes
`re.findall(r'\d+', name)[0]` — `IndexError` when the string holds no digit —
and then assigns through `new_df`, a name unbound in this scope (`new_df` is
a local of `main`), raising `NameError`; either way the branch never returns
and never writes a phone number.  The fall-through path removes quotes, a
leading digit run, every `A1C`, collapses whitespace, title-cases and
strips. -/
def clean_name (name : String) : Except PyErr String :=
  if wordCount name > 4 then
    Except.ok "N/A"
  else if telephoneMarker name then
    (if name.data.any Char.isDigit then
      Except.error PyErr.nameError
    else
      Except.error PyErr.indexError)
  else
    Except.ok
      ⟨pyStrip (pyTitleChars false
        (collapseWS false (removeA1C (stripLeadingDigits (removeQuotes name.data)))))⟩

/-- `re.sub` removing one leading parenthesized group: if the string starts
with an opening parenthesis and a closing one occurs later, drop through the
first closing parenthesis and the whitespace after it; otherwise the pattern
does not match and the string is unchanged. -/
def stripParenGroup (l : List Char) : List Char :=
  match l with
  | '(' :: rest =>
    match rest.dropWhile (fun c => c ≠ ')') with
    | ')' :: after => after.dropWhile Char.isWhitespace
    | _ => l
  | _ => l

/-- `re.sub` removing one leading `Dr.` or `Lt.` honorific and the
whitespace after it. -/
def stripHonorific (l : List Char) : List Char :=
  if l.take 3 = ['D', 'r', '.'] || l.take 3 = ['L', 't', '.'] then
    (l.drop 3).dropWhile Char.isWhitespace
  else l

/-- `custom_sort_key` (lines 74-88): `N/A` maps to the sentinel `zzz`;
otherwise strip a leading parenthesized group, then a leading honorific. -/
def custom_sort_key (name : String) : String :=
  if name = "N/A" then "zzz"
  else ⟨stripHonorific (stripParenGroup name.data)⟩

/-! ## Python string and cell ordering

Python compares strings lexicographically by code point; pandas sorts `NaN`
cells last (`na_position` defaults to `last`). -/

/-- Python string `<=`: lexicographic by code point, a proper prefix first. -/
def pyStrLe : List Char → List Char → Bool
  | [], _ => true
  | _ :: _, [] => false
  | a :: as, b :: bs =>
    if a.toNat < b.toNat then true
    else if b.toNat < a.toNat then false
    else pyStrLe as bs

/-- Python string `<`: the strict part of `pyStrLe`. -/
def pyStrLt (a b : List Char) : Bool :=
  pyStrLe a b && !pyStrLe b a

/-- Cell comparison as pandas sorts them ascending: present values by code
point, missing values (`NaN`) last. -/
def cellLe : Cell → Cell → Bool
  | none, none => true
  | none, some _ => false
  | some _, none => true
  | some a, some b => pyStrLe a.data b.data

/-! ## The aggregation map

`contact_dict` is a Python `dict`, insertion-ordered; we model it as an
association list.  The value list
`contact_info + [1] + [set(dept)] + [set(title)]` has named fields here:
indices 0-4 are the contact info, 5 the count, 6-7 the two sets.  Python
`set`s iterate in an unspecified order; the model fixes insertion order and
claims about them use only membership. -/

/-- The five contact-info fields passed to `add_to_dict` (indices 0-4). -/
structure ContactInfo where
  email : Cell
  phone : Cell
  state : Cell
  city : Cell
  agency : Cell
deriving DecidableEq, Repr

/-- `opportunity_info`: `[row['sub_tier'], row['title']]`. -/
structure OppInfo where
  department : String
  title : String
deriving DecidableEq, Repr

/-- One value of `contact_dict`. -/
structure ContactRecord where
  email : Cell
  phone : Cell
  state : Cell
  city : Cell
  agency : Cell
  opportunity_count : Nat
  associated_departments : List String
  contract_types : List String
deriving DecidableEq, Repr

/-- The aggregation map, insertion-ordered. -/
abbrev Dict := List (String × ContactRecord)

/-- Python `dict` key lookup. -/
def lookupD : Dict → String → Option ContactRecord
  | [], _ => none
  | (k, r) :: rest, key => if k = key then some r else lookupD rest key

/-- Python `dict` assignment to an existing key: replace its value in
place. -/
def updateD : Dict → String → ContactRecord → Dict
  | [], _, _ => []
  | (k, r) :: rest, key, v =>
    if k = key then (key, v) :: rest else (k, r) :: updateD rest key v

/-- Python `set.add`: a no-op when the element is present, otherwise (in
this insertion-ordered model) append. -/
def addSet (s : List String) (x : String) : List String :=
  if x ∈ s then s else s ++ [x]

/-- `add_to_dict` (lines 25-46).  Skips a falsy or `NaN` name; otherwise
title-cases it into the identity key; creates a fresh record on first
sighting, and on a repeat sighting increments the count and adds to the two
sets — the five contact-info fields of the existing record are not
touched. -/
def add_to_dict (contact_name : Cell) (contact_info : ContactInfo)
    (opportunity_info : OppInfo) (d : Dict) : Dict :=
  match contact_name with
  | none => d
  | some s =>
    if s = "" then d
    else
      let formatted_name := pyTitle s
      match lookupD d formatted_name with
      | none =>
        d ++ [(formatted_name,
          { email := contact_info.email
            phone := contact_info.phone
            state := contact_info.state
            city := contact_info.city
            agency := contact_info.agency
            opportunity_count := 1
            associated_departments := [opportunity_info.department]
            contract_types := [opportunity_info.title] })]
      | some existing_info =>
        updateD d formatted_name
          { existing_info with
            opportunity_count := existing_info.opportunity_count + 1
            associated_departments :=
              addSet existing_info.associated_departments opportunity_info.department
            contract_types :=
              addSet existing_info.contract_types opportunity_info.title }

/-! ## The pipeline driver (`main`, lines 113-165) -/

/-- One input CSV row.  `sub_tier` and `title` feed the opportunity info;
the remaining fields are cells that may be missing. -/
structure Row where
  sub_tier : String
  title : String
  primary_contact_full_name : Cell
  primary_contact_email : Cell
  primary_contact_phone : Cell
  state : Cell
  city : Cell
  agency : Cell
  secondary_contact_full_name : Cell
  secondary_contact_email : Cell
  secondary_contact_phone : Cell
deriving DecidableEq, Repr

/-- The body of the row loop (lines 119-144): upsert the primary contact,
then the secondary one when the column exists (`hasSec`) and the cell is
truthy and not `NaN`. -/
def processRow (hasSec : Bool) (d : Dict) (row : Row) : Dict :=
  let opportunity_info : OppInfo := ⟨row.sub_tier, row.title⟩
  let primary_contact_info : ContactInfo :=
    ⟨row.primary_contact_email, row.primary_contact_phone,
      row.state, row.city, row.agency⟩
  let d1 := add_to_dict row.primary_contact_full_name primary_contact_info
    opportunity_info d
  if hasSec && truthy row.secondary_contact_full_name then
    add_to_dict row.secondary_contact_full_name
      ⟨row.secondary_contact_email, row.secondary_contact_phone,
        row.state, row.city, row.agency⟩
      opportunity_info d1
  else d1

/-- The full row loop, starting from the (initially empty) global map. -/
def buildDict (hasSec : Bool) (rows : List Row) : Dict :=
  rows.foldl (processRow hasSec) []

/-- One row of the output table (after sets are joined and the name column
is re-title-cased and cleaned). -/
structure OutputRow where
  name : String
  email : Cell
  phone : Cell
  state : Cell
  city : Cell
  agency : Cell
  opportunity_count : Nat
  associated_departments : String
  contract_types : String
deriving DecidableEq, Repr

/-- Finalization of one map entry (lines 146-159): join the two sets with
a comma, re-title-case the key and pass it through `clean_name` — which may
raise, aborting the run. -/
def finalizeEntry (e : String × ContactRecord) : Except PyErr OutputRow :=
  match clean_name (pyTitle e.1) with
  | Except.error err => Except.error err
  | Except.ok nm =>
    Except.ok
      { name := nm
        email := e.2.email
        phone := e.2.phone
        state := e.2.state
        city := e.2.city
        agency := e.2.agency
        opportunity_count := e.2.opportunity_count
        associated_departments := String.intercalate ", " e.2.associated_departments
        contract_types := String.intercalate ", " e.2.contract_types }

/-! ## Sorting (`sort_dataframe`, lines 90-110)

Each policy is a pandas `sort_values` with the default `kind='quicksort'`,
which pandas does not guarantee to be stable: the order of rows with equal
keys is implementation-defined (numpy introsort; it happens to coincide
with insertion sort below numpy's small-array threshold, but not in
general).  We model each policy as an insertion sort by the policy's key.
This fixes one sorted realization: conclusions drawn from the model must
depend only on the output being sorted by the key (as the theorems below
do), not on which permutation of equal-key rows is produced. -/

/-- Policy `name`: ascending by `custom_sort_key` of the name column. -/
def nameLe (r s : OutputRow) : Prop :=
  pyStrLe (custom_sort_key r.name).data (custom_sort_key s.name).data = true

/-- Policy `city`: ascending by the column pair `['city', 'state']` — city
is the primary component. -/
def cityLe (r s : OutputRow) : Prop :=
  (cellLe r.city s.city && (!cellLe s.city r.city || cellLe r.state s.state)) = true

/-- Policy `department`: ascending by the joined departments string. -/
def deptLe (r s : OutputRow) : Prop :=
  pyStrLe r.associated_departments.data s.associated_departments.data = true

/-- Policy `opportunity`: descending by `opportunity_count`. -/
def oppLe (r s : OutputRow) : Prop :=
  s.opportunity_count ≤ r.opportunity_count

instance : DecidableRel nameLe := fun _ _ => decEq _ _
instance : DecidableRel cityLe := fun _ _ => decEq _ _
instance : DecidableRel deptLe := fun _ _ => decEq _ _
instance : DecidableRel oppLe := fun _ _ => Nat.decLe _ _

/-- `sort_dataframe` (lines 90-110): dispatch on the sorting parameter;
an unrecognized value returns the input unsorted. -/
def sort_dataframe (rows : List OutputRow) (sort_by : String) : List OutputRow :=
  if sort_by = "name" then rows.insertionSort nameLe
  else if sort_by = "city" then rows.insertionSort cityLe
  else if sort_by = "department" then rows.insertionSort deptLe
  else if sort_by = "opportunity" then rows.insertionSort oppLe
  else rows

/-- `main` (lines 113-165) without the file I/O: aggregate all rows,
finalize every entry in insertion order (propagating any exception from
`clean_name`), then sort by the configured parameter. -/
def runPipeline (sort_by : String) (hasSec : Bool) (rows : List Row) :
    Except PyErr (List OutputRow) :=
  match (buildDict hasSec rows).mapM finalizeEntry with
  | Except.error e => Except.error e
  | Except.ok outs => Except.ok (sort_dataframe outs sort_by)

/-! ## Definitions for stating the claims -/

/-- Does this contact slot hit identity key `k`: the cell is present, not
empty, and title-cases to `k`?  (A slot that fails the guard of
`add_to_dict` hits no key.) -/
def slotHit (name : Cell) (k : String) : Bool :=
  match name with
  | none => false
  | some s => s ≠ "" && pyTitle s = k

/-- The count the spec promises (its count-correctness property, stated in
the spec's words): the number of input-row contact slots — primary, and
secondary when that column exists — whose name maps to identity key `k`. -/
def specSlotCount (hasSec : Bool) (rows : List Row) (k : String) : Nat :=
  (rows.map (fun row =>
    (if slotHit row.primary_contact_full_name k then 1 else 0) +
    (if hasSec && slotHit row.secondary_contact_full_name k then 1 else 0))).sum

/-- The opportunity count stored for key `k`, zero when `k` is absent. -/
def dictCount (d : Dict) (k : String) : Nat :=
  match lookupD d k with
  | none => 0
  | some r => r.opportunity_count

/-- The ordering the spec claims for the `city` policy, in the spec's
words: lexicographic by the pair (state, city), state primary. -/
def specStateCityLe (r s : OutputRow) : Prop :=
  (cellLe r.state s.state && (!cellLe s.state r.state || cellLe r.city s.city)) = true

instance : DecidableRel specStateCityLe := fun _ _ => decEq _ _

/-- A concrete record used in witnesses: the state of the map after one
sighting of Jane Smith. -/
def janeRec : ContactRecord :=
  { email := some "first@agency.gov"
    phone := some "111-2222"
    state := some "VT"
    city := some "Burlington"
    agency := some "AgencyA"
    opportunity_count := 1
    associated_departments := ["Logistics"]
    contract_types := ["Widget Supply"] }

/-- Contact info carried by a later row for the same identity, with
different contents in every field. -/
def laterInfo : ContactInfo :=
  { email := some "second@agency.gov"
    phone := some "333-4444"
    state := some "NH"
    city := some "Keene"
    agency := some "AgencyB" }

/-- The first row of the end-to-end scenario: opportunity `Widget Supply`
under department `Logistics`, primary contact name `nm`. -/
def widgetRow (nm : String) : Row :=
  { sub_tier := "Logistics", title := "Widget Supply"
    primary_contact_full_name := some nm
    primary_contact_email := some "first@agency.gov"
    primary_contact_phone := some "111-2222"
    state := some "VT", city := some "Burlington", agency := some "AgencyA"
    secondary_contact_full_name := none
    secondary_contact_email := none
    secondary_contact_phone := none }

/-- The second row of the end-to-end scenario: opportunity `Gadget Supply`
under department `Logistics`, primary contact name `nm`. -/
def gadgetRow (nm : String) : Row :=
  { sub_tier := "Logistics", title := "Gadget Supply"
    primary_contact_full_name := some nm
    primary_contact_email := some "second@agency.gov"
    primary_contact_phone := some "333-4444"
    state := some "NH", city := some "Keene", agency := some "AgencyB"
    secondary_contact_full_name := none
    secondary_contact_email := none
    secondary_contact_phone := none }

/-- A minimal output row for sorting scenarios. -/
def outRow (nm : String) (st ct : Cell) (cnt : Nat) : OutputRow :=
  { name := nm, email := none, phone := none
    state := st, city := ct, agency := none
    opportunity_count := cnt
    associated_departments := "", contract_types := "" }

/-- Split a joined field back on the separator comma-space, to state
"contains this entry" about a joined set field. -/
def splitCommaSpace (s : String) : List String :=
  go s.data []
where
  go : List Char → List Char → List String
    | [], acc => [String.mk acc.reverse]
    | ',' :: ' ' :: rest, acc => String.mk acc.reverse :: go rest []
    | c :: rest, acc => go rest (c :: acc)

/-- Three rows whose names all strip to the key `Jane Smith`. -/
def honorificRows : List OutputRow :=
  [outRow "(Reserve) Dr. Jane Smith" none none 1,
   outRow "Dr. Jane Smith" none none 2,
   outRow "Jane Smith" none none 3]

/-- An `N/A` row next to an ordinary alphabetic name. -/
def sentinelRows : List OutputRow :=
  [outRow "N/A" none none 1, outRow "Alice" none none 2]

/-! ## Helper lemmas on the aggregation map -/

/-- Replacing the value at a key that is present makes lookup return the
new value. -/
theorem lookupD_updateD {d : Dict} {k : String} {r v : ContactRecord}
    (h : lookupD d k = some r) : lookupD (updateD d k v) k = some v := by
  induction d with
  | nil => simp [lookupD] at h
  | cons e rest ih =>
    obtain ⟨k1, r1⟩ := e
    by_cases hk : k1 = k
    · subst hk
      simp [lookupD, updateD]
    · simp only [lookupD, updateD, if_neg hk] at h ⊢
      exact ih h

/-- On a repeat sighting of a nonempty name, `add_to_dict` stores back the
existing record with the count bumped and the two sets extended; every
other field is copied from the existing record. -/
theorem add_to_dict_existing (s : String) (ci : ContactInfo) (oi : OppInfo)
    (d : Dict) (r : ContactRecord) (hs : s ≠ "")
    (hmem : lookupD d (pyTitle s) = some r) :
    lookupD (add_to_dict (some s) ci oi d) (pyTitle s) =
      some { r with
        opportunity_count := r.opportunity_count + 1
        associated_departments := addSet r.associated_departments oi.department
        contract_types := addSet r.contract_types oi.title } := by
  simp only [add_to_dict, if_neg hs, hmem]
  exact lookupD_updateD hmem

/-- Lookup across a concatenation when the left part misses the key. -/
theorem lookupD_append_of_none {d1 : Dict} (d2 : Dict) {k : String}
    (h : lookupD d1 k = none) : lookupD (d1 ++ d2) k = lookupD d2 k := by
  induction d1 with
  | nil => rfl
  | cons e rest ih =>
    obtain ⟨k1, r1⟩ := e
    by_cases hk : k1 = k
    · simp [lookupD, hk] at h
    · simp only [lookupD, if_neg hk] at h
      simpa [lookupD, hk] using ih h

/-- Replacing the value at one key leaves lookups at other keys alone. -/
theorem lookupD_updateD_ne {d : Dict} {k k' : String} (v : ContactRecord)
    (h : k' ≠ k) : lookupD (updateD d k v) k' = lookupD d k' := by
  induction d with
  | nil => rfl
  | cons e rest ih =>
    obtain ⟨k1, r1⟩ := e
    by_cases hk : k1 = k
    · subst hk
      simp [lookupD, updateD, if_neg (Ne.symm h)]
    · simp only [updateD, if_neg hk, lookupD]
      by_cases hk' : k1 = k' <;> simp [hk', ih]

/-- A slot that fails the truthiness guard hits no key. -/
theorem slotHit_eq_false_of_not_truthy {n : Cell} (h : truthy n = false)
    (k : String) : slotHit n k = false := by
  match n with
  | none => rfl
  | some s =>
    simp only [truthy, decide_eq_false_iff_not, not_not] at h
    simp [slotHit, h]

/-- One `add_to_dict` call changes the stored count only at the key its
slot hits, and there by exactly one. -/
theorem dictCount_add_to_dict (n : Cell) (ci : ContactInfo) (oi : OppInfo)
    (d : Dict) (k : String) :
    dictCount (add_to_dict n ci oi d) k =
      dictCount d k + (if slotHit n k then 1 else 0) := by
  match n with
  | none => simp [add_to_dict, slotHit]
  | some s =>
    by_cases hs : s = ""
    · subst hs
      simp [add_to_dict, slotHit]
    · simp only [add_to_dict, if_neg hs]
      by_cases hk : pyTitle s = k
      · subst hk
        have hhit : slotHit (some s) (pyTitle s) = true := by simp [slotHit, hs]
        rw [hhit, if_pos rfl]
        cases hl : lookupD d (pyTitle s) with
        | none =>
          rw [dictCount, lookupD_append_of_none _ hl]
          simp [lookupD, dictCount, hl]
        | some r =>
          rw [dictCount, lookupD_updateD hl]
          simp [dictCount, hl]
      · have hhit : slotHit (some s) k = false := by simp [slotHit, hk]
        rw [hhit, if_neg (by simp)]
        cases hl : lookupD d (pyTitle s) with
        | none =>
          cases hl2 : lookupD d k with
          | none =>
            rw [dictCount, lookupD_append_of_none _ hl2]
            simp [lookupD, hk, dictCount, hl2]
          | some r2 =>
            have : lookupD (d ++ [(pyTitle s,
                { email := ci.email, phone := ci.phone, state := ci.state
                  city := ci.city, agency := ci.agency, opportunity_count := 1
                  associated_departments := [oi.department]
                  contract_types := [oi.title] })]) k = some r2 := by
              clear hl
              induction d with
              | nil => simp [lookupD] at hl2
              | cons e rest ih =>
                obtain ⟨k1, r1⟩ := e
                by_cases hk1 : k1 = k
                · simp only [lookupD, if_pos hk1] at hl2
                  simp [lookupD, hk1, hl2]
                · simp only [lookupD, if_neg hk1] at hl2
                  simpa [lookupD, hk1] using ih hl2
            simp [dictCount, hl2, this]
        | some r =>
          rw [dictCount, lookupD_updateD_ne _ (Ne.symm hk), dictCount]
          simp

/-- One row adds one to the count at `k` for each of its slots hitting
`k`. -/
theorem dictCount_processRow (hasSec : Bool) (d : Dict) (row : Row)
    (k : String) :
    dictCount (processRow hasSec d row) k =
      dictCount d k +
        ((if slotHit row.primary_contact_full_name k then 1 else 0) +
          (if hasSec && slotHit row.secondary_contact_full_name k then 1 else 0)) := by
  cases hasSec with
  | false =>
    simp only [processRow, Bool.false_and, Bool.false_eq_true, if_false,
      dictCount_add_to_dict]
    simp
  | true =>
    cases ht : truthy row.secondary_contact_full_name with
    | false =>
      simp only [processRow, ht, Bool.and_false, Bool.false_eq_true, if_false,
        dictCount_add_to_dict, Bool.true_and,
        slotHit_eq_false_of_not_truthy ht]
      simp
    | true =>
      simp only [processRow, ht, Bool.and_true, Bool.true_and, if_true,
        dictCount_add_to_dict]
      omega

/-- Folding the row loop adds exactly the spec's slot count to every
key. -/
theorem dictCount_foldl (hasSec : Bool) (rows : List Row) (d : Dict)
    (k : String) :
    dictCount (rows.foldl (processRow hasSec) d) k =
      dictCount d k + specSlotCount hasSec rows k := by
  induction rows generalizing d with
  | nil => simp [specSlotCount]
  | cons row rest ih =>
    rw [List.foldl_cons, ih, dictCount_processRow]
    simp only [specSlotCount, List.map_cons, List.sum_cons]
    omega

/-! ## Character lemmas

Facts about the ASCII case functions, used both for the identity-key
congruence (two raw names equal up to letter casing title-case to the same
key) and for the string order. -/

theorem char_toNat_ofNat {n : Nat} (h : n.isValidChar) :
    (Char.ofNat n).toNat = n := by
  simp only [Char.ofNat, dif_pos h, Char.ofNatAux, Char.toNat, UInt32.toNat]
  simp [BitVec.toNat_ofNatLt]

theorem char_eq_of_toNat_eq {c d : Char} (h : c.toNat = d.toNat) : c = d := by
  apply Char.eq_of_val_eq
  apply UInt32.eq_of_toBitVec_eq
  exact BitVec.eq_of_toNat_eq h

theorem isUpper_iff (c : Char) :
    c.isUpper = true ↔ 65 ≤ c.toNat ∧ c.toNat ≤ 90 := by
  simp [Char.isUpper, Char.toNat, UInt32.toNat, UInt32.le_def, BitVec.le_def]

theorem isLower_iff (c : Char) :
    c.isLower = true ↔ 97 ≤ c.toNat ∧ c.toNat ≤ 122 := by
  simp [Char.isLower, Char.toNat, UInt32.toNat, UInt32.le_def, BitVec.le_def]

theorem toLower_toNat (c : Char) :
    c.toLower.toNat =
      if 65 ≤ c.toNat ∧ c.toNat ≤ 90 then c.toNat + 32 else c.toNat := by
  show (if c.toNat ≥ 65 ∧ c.toNat ≤ 90 then Char.ofNat (c.toNat + 32) else c).toNat = _
  by_cases h : 65 ≤ c.toNat ∧ c.toNat ≤ 90
  · rw [if_pos h, if_pos h]
    exact char_toNat_ofNat (Or.inl (by omega))
  · rw [if_neg h, if_neg h]

/-- Two characters with the same lowercasing agree on alphabeticity and on
uppercasing: the one title-casing step cannot tell them apart. -/
theorem char_casefold {c1 c2 : Char} (h : c1.toLower = c2.toLower) :
    c1.isAlpha = c2.isAlpha ∧ c1.toUpper = c2.toUpper := by
  have ht := congrArg Char.toNat h
  rw [toLower_toNat, toLower_toNat] at ht
  by_cases h1 : 65 ≤ c1.toNat ∧ c1.toNat ≤ 90 <;>
    by_cases h2 : 65 ≤ c2.toNat ∧ c2.toNat ≤ 90
  · rw [if_pos h1, if_pos h2] at ht
    have : c1 = c2 := char_eq_of_toNat_eq (by omega)
    subst this; exact ⟨rfl, rfl⟩
  · rw [if_pos h1, if_neg h2] at ht
    have hl2 : c2.isLower = true := (isLower_iff c2).mpr (by omega)
    have hu1 : c1.isUpper = true := (isUpper_iff c1).mpr h1
    constructor
    · simp [Char.isAlpha, hu1, hl2]
    · unfold Char.toUpper
      rw [if_neg (by omega), if_pos (by omega)]
      have : c2.toNat - 32 = c1.toNat := by omega
      rw [this, Char.ofNat_toNat]
  · rw [if_neg h1, if_pos h2] at ht
    have hl1 : c1.isLower = true := (isLower_iff c1).mpr (by omega)
    have hu2 : c2.isUpper = true := (isUpper_iff c2).mpr h2
    constructor
    · simp [Char.isAlpha, hl1, hu2]
    · unfold Char.toUpper
      rw [if_pos (by omega), if_neg (by omega)]
      have : c1.toNat - 32 = c2.toNat := by omega
      rw [this, Char.ofNat_toNat]
  · rw [if_neg h1, if_neg h2] at ht
    have : c1 = c2 := char_eq_of_toNat_eq ht
    subst this; exact ⟨rfl, rfl⟩

/-- The title-casing traversal sees only lowercasings, so it identifies
strings that are equal up to letter casing. -/
theorem pyTitleChars_congr : ∀ (b : Bool) (l1 l2 : List Char),
    l1.map Char.toLower = l2.map Char.toLower →
    pyTitleChars b l1 = pyTitleChars b l2
  | _, [], l2 => fun h => by
    simp only [List.map_nil] at h
    rw [List.map_eq_nil_iff.mp h.symm]
  | b, c1 :: t1, [] => fun h => by simp at h
  | b, c1 :: t1, c2 :: t2 => fun h => by
    simp only [List.map_cons, List.cons.injEq] at h
    obtain ⟨hc, htl⟩ := h
    obtain ⟨ha, hu⟩ := char_casefold hc
    simp only [pyTitleChars, ha]
    by_cases hal : c2.isAlpha = true
    · rw [if_pos hal, if_pos hal, hc, hu, pyTitleChars_congr true t1 t2 htl]
    · rw [if_neg hal, if_neg hal]
      have hc1 : c1.toLower = c1 := by
        apply char_eq_of_toNat_eq
        rw [toLower_toNat, if_neg]
        intro hcon
        have : c1.isAlpha = true := by
          simp [Char.isAlpha, (isUpper_iff c1).mpr hcon]
        rw [ha] at this
        exact hal this
      have hc2 : c2.toLower = c2 := by
        apply char_eq_of_toNat_eq
        rw [toLower_toNat, if_neg]
        intro hcon
        exact hal (by simp [Char.isAlpha, (isUpper_iff c2).mpr hcon])
      rw [← hc1, ← hc2, hc, pyTitleChars_congr false t1 t2 htl]

/-- Names equal up to letter casing produce the same identity key. -/
theorem pyTitle_congr {s1 s2 : String}
    (h : s1.data.map Char.toLower = s2.data.map Char.toLower) :
    pyTitle s1 = pyTitle s2 := by
  unfold pyTitle
  rw [pyTitleChars_congr false s1.data s2.data h]

/-! ## Order lemmas for the sorting policies -/

theorem pyStrLe_total : ∀ l1 l2 : List Char,
    pyStrLe l1 l2 = true ∨ pyStrLe l2 l1 = true
  | [], _ => Or.inl rfl
  | _ :: _, [] => Or.inr rfl
  | a :: as, b :: bs => by
    rcases Nat.lt_trichotomy a.toNat b.toNat with h | h | h
    · left; simp [pyStrLe, h]
    · have hne : ¬ a.toNat < b.toNat := by omega
      have hne' : ¬ b.toNat < a.toNat := by omega
      rcases pyStrLe_total as bs with ih | ih
      · left; simp [pyStrLe, hne, hne', ih]
      · right; simp [pyStrLe, hne, hne', ih]
    · right; simp [pyStrLe, h]

theorem pyStrLe_trans : ∀ l1 l2 l3 : List Char,
    pyStrLe l1 l2 = true → pyStrLe l2 l3 = true → pyStrLe l1 l3 = true
  | [], _, _ => fun _ _ => rfl
  | a :: as, [], _ => fun h _ => by simp [pyStrLe] at h
  | _ :: _, _ :: _, [] => fun _ h => by simp [pyStrLe] at h
  | a :: as, b :: bs, c :: cs => fun h1 h2 => by
    simp only [pyStrLe] at h1 h2 ⊢
    by_cases hab : a.toNat < b.toNat <;> by_cases hbc : b.toNat < c.toNat <;>
      simp only [hab, hbc, if_pos, if_neg, if_true, if_false] at h1 h2 ⊢
    · simp [show a.toNat < c.toNat by omega]
    · by_cases hcb : c.toNat < b.toNat
      · simp [hcb] at h2
      · simp [show a.toNat < c.toNat by omega]
    · by_cases hba : b.toNat < a.toNat
      · simp [hba] at h1
      · simp [show a.toNat < c.toNat by omega]
    · by_cases hba : b.toNat < a.toNat
      · simp [hba] at h1
      · by_cases hcb : c.toNat < b.toNat
        · simp [hcb] at h2
        · have hac : ¬ a.toNat < c.toNat := by omega
          have hca : ¬ c.toNat < a.toNat := by omega
          simp only [hac, hca, if_neg, if_false]
          simp only [hba, if_neg, if_false] at h1
          simp only [hcb, if_neg, if_false] at h2
          exact pyStrLe_trans as bs cs h1 h2

theorem pyStrLe_antisymm : ∀ l1 l2 : List Char,
    pyStrLe l1 l2 = true → pyStrLe l2 l1 = true → l1 = l2
  | [], [] => fun _ _ => rfl
  | [], _ :: _ => fun _ h => by simp [pyStrLe] at h
  | _ :: _, [] => fun h _ => by simp [pyStrLe] at h
  | a :: as, b :: bs => fun h1 h2 => by
    rcases Nat.lt_trichotomy a.toNat b.toNat with h | h | h
    · simp [pyStrLe, h, show ¬ b.toNat < a.toNat by omega] at h2
    · have hne : ¬ a.toNat < b.toNat := by omega
      have hne' : ¬ b.toNat < a.toNat := by omega
      simp only [pyStrLe, hne, hne', if_neg, if_false] at h1 h2
      have heq : a = b := char_eq_of_toNat_eq h
      rw [heq, pyStrLe_antisymm as bs h1 h2]
    · simp [pyStrLe, h, show ¬ a.toNat < b.toNat by omega] at h1

instance : IsTotal OutputRow nameLe :=
  ⟨fun r s => pyStrLe_total (custom_sort_key r.name).data (custom_sort_key s.name).data⟩

instance : IsTrans OutputRow nameLe :=
  ⟨fun _ _ _ => pyStrLe_trans _ _ _⟩

instance : IsTotal OutputRow deptLe :=
  ⟨fun r s => pyStrLe_total r.associated_departments.data s.associated_departments.data⟩

instance : IsTrans OutputRow deptLe :=
  ⟨fun _ _ _ => pyStrLe_trans _ _ _⟩

instance : IsTotal OutputRow oppLe :=
  ⟨fun r s => Nat.le_total s.opportunity_count r.opportunity_count⟩

instance : IsTrans OutputRow oppLe :=
  ⟨fun _ _ _ h1 h2 => Nat.le_trans h2 h1⟩

theorem cellLe_total : ∀ c1 c2 : Cell, cellLe c1 c2 = true ∨ cellLe c2 c1 = true
  | none, none => Or.inl rfl
  | none, some _ => Or.inr rfl
  | some _, none => Or.inl rfl
  | some a, some b => pyStrLe_total a.data b.data

theorem cellLe_trans : ∀ c1 c2 c3 : Cell,
    cellLe c1 c2 = true → cellLe c2 c3 = true → cellLe c1 c3 = true
  | none, none, c3 => fun _ h => h
  | none, some _, _ => fun h _ => by simp [cellLe] at h
  | some _, none, none => fun _ _ => rfl
  | some _, none, some _ => fun _ h => by simp [cellLe] at h
  | some _, some _, none => fun _ _ => rfl
  | some a, some b, some c => fun h1 h2 => pyStrLe_trans a.data b.data c.data h1 h2

/-- Transitivity of the two-component lexicographic boolean order used by
the multi-column sorts. -/
theorem lexPair_trans {α β : Type} (le1 : α → α → Bool) (le2 : β → β → Bool)
    (h1t : ∀ a b c, le1 a b = true → le1 b c = true → le1 a c = true)
    (h2t : ∀ a b c, le2 a b = true → le2 b c = true → le2 a c = true)
    (p q v : α × β)
    (hpq : (le1 p.1 q.1 && (!le1 q.1 p.1 || le2 p.2 q.2)) = true)
    (hqv : (le1 q.1 v.1 && (!le1 v.1 q.1 || le2 q.2 v.2)) = true) :
    (le1 p.1 v.1 && (!le1 v.1 p.1 || le2 p.2 v.2)) = true := by
  simp only [Bool.and_eq_true, Bool.or_eq_true, Bool.not_eq_true'] at hpq hqv ⊢
  obtain ⟨hpq1, hpq2⟩ := hpq
  obtain ⟨hqv1, hqv2⟩ := hqv
  refine ⟨h1t _ _ _ hpq1 hqv1, ?_⟩
  by_cases hvp : le1 v.1 p.1 = true
  · have hvq : le1 v.1 q.1 = true := h1t _ _ _ hvp hpq1
    have hqp : le1 q.1 p.1 = true := h1t _ _ _ hqv1 hvp
    rcases hpq2 with h | h
    · rw [hqp] at h; cases h
    · rcases hqv2 with h' | h'
      · rw [hvq] at h'; cases h'
      · exact Or.inr (h2t _ _ _ h h')
  · exact Or.inl (by simpa using hvp)

/-- Totality of the two-component lexicographic boolean order. -/
theorem lexPair_total {α β : Type} (le1 : α → α → Bool) (le2 : β → β → Bool)
    (h1t : ∀ a b, le1 a b = true ∨ le1 b a = true)
    (h2t : ∀ a b, le2 a b = true ∨ le2 b a = true)
    (p q : α × β) :
    (le1 p.1 q.1 && (!le1 q.1 p.1 || le2 p.2 q.2)) = true ∨
      (le1 q.1 p.1 && (!le1 p.1 q.1 || le2 q.2 p.2)) = true := by
  by_cases h1 : le1 p.1 q.1 = true <;> by_cases h2 : le1 q.1 p.1 = true
  · rcases h2t p.2 q.2 with h | h
    · exact Or.inl (by simp [h1, h])
    · exact Or.inr (by simp [h2, h])
  · exact Or.inl (by simp [h1, h2])
  · exact Or.inr (by simp [h1, h2])
  · rcases h1t p.1 q.1 with h | h
    · exact absurd h h1
    · exact absurd h h2

instance : IsTotal OutputRow cityLe :=
  ⟨fun r s =>
    lexPair_total cellLe cellLe cellLe_total cellLe_total
      (r.city, r.state) (s.city, s.state)⟩

instance : IsTrans OutputRow cityLe :=
  ⟨fun r s v =>
    lexPair_trans cellLe cellLe
      (fun a b c => cellLe_trans a b c) (fun a b c => cellLe_trans a b c)
      (r.city, r.state) (s.city, s.state) (v.city, v.state)⟩

instance : IsTotal OutputRow specStateCityLe :=
  ⟨fun r s =>
    lexPair_total cellLe cellLe cellLe_total cellLe_total
      (r.state, r.city) (s.state, s.city)⟩

instance : IsTrans OutputRow specStateCityLe :=
  ⟨fun r s v =>
    lexPair_trans cellLe cellLe
      (fun a b c => cellLe_trans a b c) (fun a b c => cellLe_trans a b c)
      (r.state, r.city) (s.state, s.city) (v.state, v.city)⟩

/-! ## Claims -/

/-- C1 counterexample: upserting a second row for an identity that already
exists does not overwrite the stored email with the new row's email — the
record keeps the first row's email, refuting last-writer-wins. -/
theorem C1_counterexample :
    ∃ r, lookupD
        (add_to_dict (some "JANE SMITH") laterInfo ⟨"Transport", "Gadget Supply"⟩
          [("Jane Smith", janeRec)]) "Jane Smith" = some r ∧
      r.email = some "first@agency.gov" ∧
      r.email ≠ laterInfo.email ∧
      r.phone ≠ laterInfo.phone := by
  refine ⟨_, rfl, ?_, ?_, ?_⟩ <;> decide

/-- C1 (amended): for every upsert of a contact whose identity key already
exists in the aggregation map, the record's email, phone, state, city and
agency fields are left exactly as they were — only the opportunity count
and the two sets change, so the final record holds the FIRST contributing
row's contact details. -/
theorem C1_amended_first_writer_wins (s : String) (ci : ContactInfo)
    (oi : OppInfo) (d : Dict) (r : ContactRecord) (hs : s ≠ "")
    (hmem : lookupD d (pyTitle s) = some r) :
    ∃ r2, lookupD (add_to_dict (some s) ci oi d) (pyTitle s) = some r2 ∧
      r2.email = r.email ∧ r2.phone = r.phone ∧ r2.state = r.state ∧
      r2.city = r.city ∧ r2.agency = r.agency ∧
      r2.opportunity_count = r.opportunity_count + 1 ∧
      r2.associated_departments = addSet r.associated_departments oi.department ∧
      r2.contract_types = addSet r.contract_types oi.title :=
  ⟨_, add_to_dict_existing s ci oi d r hs hmem, rfl, rfl, rfl, rfl, rfl, rfl, rfl, rfl⟩

/-- C1 amended-claim witness at a concrete repeat sighting. -/
theorem C1_amended_witness :
    ∃ r2, lookupD
        (add_to_dict (some "jane smith") laterInfo ⟨"Transport", "Gadget Supply"⟩
          [("Jane Smith", janeRec)]) (pyTitle "jane smith") = some r2 ∧
      r2.email = janeRec.email ∧ r2.phone = janeRec.phone ∧
      r2.state = janeRec.state ∧ r2.city = janeRec.city ∧
      r2.agency = janeRec.agency ∧
      r2.opportunity_count = janeRec.opportunity_count + 1 ∧
      r2.associated_departments =
        addSet janeRec.associated_departments "Transport" ∧
      r2.contract_types = addSet janeRec.contract_types "Gadget Supply" :=
  C1_amended_first_writer_wins "jane smith" laterInfo ⟨"Transport", "Gadget Supply"⟩
    [("Jane Smith", janeRec)] janeRec (by decide) rfl

/-- C9: for every upsert whose identity key already exists, the stored
email, phone, state, city and agency are untouched; the update writes back
the existing record with only the count incremented and the department and
contract-type sets extended. -/
theorem C9_frame_contact_fields (s : String) (ci : ContactInfo) (oi : OppInfo)
    (d : Dict) (r : ContactRecord) (hs : s ≠ "")
    (hmem : lookupD d (pyTitle s) = some r) :
    lookupD (add_to_dict (some s) ci oi d) (pyTitle s) =
      some { email := r.email, phone := r.phone, state := r.state
             city := r.city, agency := r.agency
             opportunity_count := r.opportunity_count + 1
             associated_departments := addSet r.associated_departments oi.department
             contract_types := addSet r.contract_types oi.title } :=
  add_to_dict_existing s ci oi d r hs hmem

/-- C9 witness at a concrete repeat sighting. -/
theorem C9_witness :
    lookupD
        (add_to_dict (some "JANE smith") laterInfo ⟨"Ops", "Bolt Order"⟩
          [("Jane Smith", janeRec)]) (pyTitle "JANE smith") =
      some { email := janeRec.email, phone := janeRec.phone
             state := janeRec.state, city := janeRec.city
             agency := janeRec.agency
             opportunity_count := janeRec.opportunity_count + 1
             associated_departments := addSet janeRec.associated_departments "Ops"
             contract_types := addSet janeRec.contract_types "Bolt Order" } :=
  C9_frame_contact_fields "JANE smith" laterInfo ⟨"Ops", "Bolt Order"⟩
    [("Jane Smith", janeRec)] janeRec (by decide) rfl

/-- C8: an empty or missing (`NaN`) contact name is skipped by
`add_to_dict`: the aggregation map is returned unchanged (the function is
total — no error path exists). -/
theorem C8_empty_name_skipped (ci : ContactInfo) (oi : OppInfo) (d : Dict) :
    add_to_dict none ci oi d = d ∧ add_to_dict (some "") ci oi d = d :=
  ⟨rfl, rfl⟩

/-- C4 counterexample: on the exact input of the claim the word count is 5,
so `clean_name` returns through the word-count branch with `N/A` and the
`Telephone:` branch — the only path that touches a phone number — is never
reached; no phone is extracted, refuting the claimed extraction of
`5551234`. -/
theorem C4_counterexample :
    clean_name "Telephone: 555-1234 call anytime please" = Except.ok "N/A" ∧
    telephoneBranchTaken "Telephone: 555-1234 call anytime please" = false ∧
    wordCount "Telephone: 555-1234 call anytime please" = 5 :=
  ⟨rfl, by decide, by decide⟩

/-- C4 (amended): the exact input `Telephone: 555-1234 call anytime please`
yields display name `N/A` with no phone extraction — the more-than-4-words
check precedes the `Telephone:` check, so the marker is not even inspected
for this input — and a long phrase without the marker likewise yields `N/A`
with no phone extraction. -/
theorem C4_amended_no_extraction :
    (clean_name "Telephone: 555-1234 call anytime please" = Except.ok "N/A" ∧
      telephoneBranchTaken "Telephone: 555-1234 call anytime please" = false) ∧
    (clean_name "please give us a call sometime" = Except.ok "N/A" ∧
      telephoneBranchTaken "please give us a call sometime" = false) :=
  ⟨⟨rfl, by decide⟩, ⟨rfl, by decide⟩⟩

/-- C10: every name that begins with optional whitespace and the
`Telephone:` marker and has at most 4 words sends `clean_name` into the
`Telephone:` branch, which always raises — `NameError` on the `new_df`
dereference when the string holds a digit, `IndexError` on the empty
`findall` result otherwise — so no cleaned name or `N/A` is returned and no
phone number is ever written back by this path. -/
theorem C10_telephone_branch_errors (name : String)
    (h4 : wordCount name ≤ 4) (hm : telephoneMarker name = true) :
    clean_name name =
      Except.error
        (if name.data.any Char.isDigit then PyErr.nameError
         else PyErr.indexError) := by
  have h4' : ¬ wordCount name > 4 := by omega
  simp only [clean_name, if_neg h4', hm, if_pos]
  cases h : name.data.any Char.isDigit <;> simp [h]

/-- C3: every identity key present after the row loop stores exactly the
number of contact slots (primary, or secondary when that column exists)
whose name mapped to it — one per contributing slot, with no
deduplication by opportunity title. -/
theorem C3_count_correct (hasSec : Bool) (rows : List Row) (k : String)
    (r : ContactRecord) (h : lookupD (buildDict hasSec rows) k = some r) :
    r.opportunity_count = specSlotCount hasSec rows k := by
  have hd := dictCount_foldl hasSec rows [] k
  rw [buildDict] at h
  rw [dictCount, h] at hd
  simpa [dictCount, lookupD] using hd

/-- C3 witness: on the two-row Jane Smith scenario the stored count equals
the spec slot count for the key `Jane Smith`. -/
theorem C3_witness :
    ∃ r, lookupD (buildDict true [widgetRow "jane smith", gadgetRow "JANE SMITH"])
        "Jane Smith" = some r ∧
      r.opportunity_count =
        specSlotCount true [widgetRow "jane smith", gadgetRow "JANE SMITH"]
          "Jane Smith" := by
  refine ⟨_, rfl, ?_⟩
  exact C3_count_correct true [widgetRow "jane smith", gadgetRow "JANE SMITH"]
    "Jane Smith" _ rfl

theorem str_eq_of_data_eq {s t : String} (h : s.data = t.data) : s = t :=
  congrArg String.mk h

theorem sort_dataframe_name (rows : List OutputRow) :
    sort_dataframe rows "name" = rows.insertionSort nameLe := rfl

theorem sort_dataframe_city_eq (rows : List OutputRow) :
    sort_dataframe rows "city" = rows.insertionSort cityLe := rfl

/-- C5 counterexample: two rows where the (state, city) order and the
(city, state) order disagree.  The `city` policy puts the row with the
larger state but smaller city first, so the output is not sorted by the
compound key (state, city) with state primary. -/
theorem C5_counterexample :
    sort_dataframe
        [outRow "A" (some "AA") (some "ZZ") 1,
         outRow "B" (some "BB") (some "YY") 1] "city" =
      [outRow "B" (some "BB") (some "YY") 1,
       outRow "A" (some "AA") (some "ZZ") 1] ∧
    ¬ List.Sorted specStateCityLe
        (sort_dataframe
          [outRow "A" (some "AA") (some "ZZ") 1,
           outRow "B" (some "BB") (some "YY") 1] "city") := by
  constructor
  · decide
  · decide

/-- C5 (amended): under the `city` policy the output is ordered
lexicographically by the compound key (city, state) — city is the primary
component, because the code sorts by the column list `['city', 'state']`. -/
theorem C5_amended_city_primary (rows : List OutputRow) :
    List.Sorted cityLe (sort_dataframe rows "city") := by
  rw [sort_dataframe_city_eq]
  exact List.sorted_insertionSort cityLe rows

/-- C7 counterexample: a record whose cleaned name `~` has a sort key that
follows the sentinel `zzz`, so the `N/A` record sorts BEFORE it — refuting
that every `N/A` record appears after all non-`N/A` records. -/
theorem C7_counterexample :
    sort_dataframe [outRow "N/A" none none 1, outRow "~" none none 1] "name" =
      [outRow "N/A" none none 1, outRow "~" none none 1] ∧
    (outRow "N/A" none none 1).name = "N/A" ∧
    (outRow "~" none none 1).name ≠ "N/A" := by
  refine ⟨by decide, rfl, by decide⟩

/-- C7 (amended): the `name` sort key strips a leading parenthesized group
and the `Dr.`/`Lt.` honorifics, so `(Reserve) Dr. Jane Smith` and
`Jane Smith` receive the same key `Jane Smith`; rows between two rows of
equal key share that key (equal-key rows are contiguous, so the two sort
adjacently when no third row shares the key); and every record with
cleaned name `N/A` appears after all records whose sort key
lexicographically precedes the sentinel `zzz` (as the key of every
title-cased alphabetic name does). -/
theorem C7_amended_name_sort (rows : List OutputRow) :
    custom_sort_key "(Reserve) Dr. Jane Smith" = "Jane Smith" ∧
    custom_sort_key "Jane Smith" = "Jane Smith" ∧
    (∀ i j k : Fin (sort_dataframe rows "name").length,
      i < j → j < k →
      custom_sort_key ((sort_dataframe rows "name").get i).name =
        custom_sort_key ((sort_dataframe rows "name").get k).name →
      custom_sort_key ((sort_dataframe rows "name").get j).name =
        custom_sort_key ((sort_dataframe rows "name").get i).name) ∧
    (∀ i j : Fin (sort_dataframe rows "name").length,
      ((sort_dataframe rows "name").get i).name = "N/A" →
      pyStrLt (custom_sort_key ((sort_dataframe rows "name").get j).name).data
        "zzz".data = true →
      j < i) := by
  have hs : List.Sorted nameLe (sort_dataframe rows "name") := by
    rw [sort_dataframe_name]
    exact List.sorted_insertionSort nameLe rows
  refine ⟨rfl, rfl, ?_, ?_⟩
  · intro i j k hij hjk hik
    have h1 : nameLe ((sort_dataframe rows "name").get i)
        ((sort_dataframe rows "name").get j) := hs.rel_get_of_lt hij
    have h2 : nameLe ((sort_dataframe rows "name").get j)
        ((sort_dataframe rows "name").get k) := hs.rel_get_of_lt hjk
    unfold nameLe at h1 h2
    rw [← hik] at h2
    exact str_eq_of_data_eq (pyStrLe_antisymm _ _ h2 h1)
  · intro i j hNA hlt
    by_contra hcon
    have hij : i ≤ j := not_lt.mp hcon
    have hkeyi : custom_sort_key ((sort_dataframe rows "name").get i).name
        = "zzz" := by rw [hNA]; rfl
    rcases lt_or_eq_of_le hij with hlt' | heq
    · have h1 : nameLe ((sort_dataframe rows "name").get i)
          ((sort_dataframe rows "name").get j) := hs.rel_get_of_lt hlt'
      unfold nameLe at h1
      rw [hkeyi] at h1
      unfold pyStrLt at hlt
      rw [h1] at hlt
      simp at hlt
    · rw [← heq, hkeyi] at hlt
      have : pyStrLt "zzz".data "zzz".data = false := by decide
      rw [this] at hlt
      cases hlt

/-- C7 witness: in the three-row honorific scenario the middle row shares
the key of the outer two, and in the sentinel scenario the `N/A` row lands
strictly after the row keyed `Alice`. -/
theorem C7_witness :
    custom_sort_key ((sort_dataframe honorificRows "name").get ⟨1, by decide⟩).name =
      custom_sort_key ((sort_dataframe honorificRows "name").get ⟨0, by decide⟩).name ∧
    (⟨0, by decide⟩ : Fin (sort_dataframe sentinelRows "name").length) <
      ⟨1, by decide⟩ := by
  constructor
  · exact (C7_amended_name_sort honorificRows).2.2.1 ⟨0, by decide⟩ ⟨1, by decide⟩
      ⟨2, by decide⟩ (by decide) (by decide) (by decide)
  · exact (C7_amended_name_sort sentinelRows).2.2.2 ⟨1, by decide⟩ ⟨0, by decide⟩
      (by decide) (by decide)

/-- A row whose secondary slot is absent contributes only its primary
slot. -/
theorem processRow_noSec (hasSec : Bool) (d : Dict) (row : Row)
    (h : row.secondary_contact_full_name = none) :
    processRow hasSec d row =
      add_to_dict row.primary_contact_full_name
        ⟨row.primary_contact_email, row.primary_contact_phone,
          row.state, row.city, row.agency⟩
        ⟨row.sub_tier, row.title⟩ d := by
  simp [processRow, h, truthy]

/-- Every policy leaves a singleton output alone. -/
theorem sort_dataframe_singleton (a : OutputRow) (sort_by : String) :
    sort_dataframe [a] sort_by = [a] := by
  unfold sort_dataframe
  split_ifs <;> rfl

/-- C2: two input rows whose primary names differ only in letter casing
(same lowercase folding) and title-case to `Jane Smith`, carrying titles
`Widget Supply` and `Gadget Supply` under department `Logistics`, produce
exactly one output row: name `Jane Smith`, opportunity count 2,
associated departments `Logistics`, and contract types containing both
titles — the identity key is the title-cased raw name, unmodified beyond
casing. -/
theorem C2_casefold_merges (sort_by : String) (hasSec : Bool) (n1 n2 : String)
    (hc : n1.data.map Char.toLower = n2.data.map Char.toLower)
    (hj : pyTitle n1 = "Jane Smith") :
    ∃ out, runPipeline sort_by hasSec [widgetRow n1, gadgetRow n2] =
        Except.ok [out] ∧
      out.name = "Jane Smith" ∧
      out.opportunity_count = 2 ∧
      out.associated_departments = "Logistics" ∧
      "Widget Supply" ∈ splitCommaSpace out.contract_types ∧
      "Gadget Supply" ∈ splitCommaSpace out.contract_types := by
  have hj2 : pyTitle n2 = "Jane Smith" := by
    rw [← pyTitle_congr hc]; exact hj
  have h1 : ¬ n1 = "" := by
    intro h; rw [h] at hj; exact absurd hj (by decide)
  have h2 : ¬ n2 = "" := by
    intro h; rw [h] at hj2; exact absurd hj2 (by decide)
  have hb : buildDict hasSec [widgetRow n1, gadgetRow n2] =
      [("Jane Smith",
        { email := some "first@agency.gov", phone := some "111-2222"
          state := some "VT", city := some "Burlington"
          agency := some "AgencyA"
          opportunity_count := 2
          associated_departments := ["Logistics"]
          contract_types := ["Widget Supply", "Gadget Supply"] })] := by
    rw [buildDict, List.foldl_cons, List.foldl_cons, List.foldl_nil,
      processRow_noSec _ _ _ rfl, processRow_noSec _ _ _ rfl]
    simp only [widgetRow, gadgetRow, add_to_dict, if_neg h1, if_neg h2, hj, hj2]
    simp [lookupD, updateD, addSet]
  have hm : (buildDict hasSec [widgetRow n1, gadgetRow n2]).mapM finalizeEntry =
      Except.ok
        [{ name := "Jane Smith"
           email := some "first@agency.gov", phone := some "111-2222"
           state := some "VT", city := some "Burlington"
           agency := some "AgencyA"
           opportunity_count := 2
           associated_departments := "Logistics"
           contract_types := "Widget Supply, Gadget Supply" }] := by
    rw [hb]; rfl
  refine ⟨{ name := "Jane Smith"
            email := some "first@agency.gov", phone := some "111-2222"
            state := some "VT", city := some "Burlington"
            agency := some "AgencyA"
            opportunity_count := 2
            associated_departments := "Logistics"
            contract_types := "Widget Supply, Gadget Supply" },
    ?_, rfl, rfl, rfl, by decide, by decide⟩
  simp only [runPipeline, hm]
  rw [sort_dataframe_singleton]

/-- C2 witness: the concrete scenario with `jane smith` and `JANE SMITH`
under the `name` policy. -/
theorem C2_witness :
    ∃ out, runPipeline "name" true
        [widgetRow "jane smith", gadgetRow "JANE SMITH"] = Except.ok [out] ∧
      out.name = "Jane Smith" ∧
      out.opportunity_count = 2 ∧
      out.associated_departments = "Logistics" ∧
      "Widget Supply" ∈ splitCommaSpace out.contract_types ∧
      "Gadget Supply" ∈ splitCommaSpace out.contract_types :=
  C2_casefold_merges "name" true "jane smith" "JANE SMITH" (by decide) (by decide)

/-- C10 witness: a 2-word `Telephone:` entry raises `NameError`. -/
theorem C10_witness :
    wordCount "Telephone: 555-1234" ≤ 4 ∧
    telephoneMarker "Telephone: 555-1234" = true ∧
    clean_name "Telephone: 555-1234" =
      Except.error
        (if ("Telephone: 555-1234").data.any Char.isDigit then PyErr.nameError
         else PyErr.indexError) :=
  ⟨by decide, by decide,
    C10_telephone_branch_errors "Telephone: 555-1234" (by decide) (by decide)⟩

end POC
